import Mathlib

/-!
Shallow embedding of `src/update.py` (lotto-tracker) together with theorems
that check the natural-language specification of the repository against the
code.  Python floats are modelled by exact decimal numbers (an integer
numerator over a power of ten), which at the magnitudes appearing in the
program coincide with float arithmetic; they are interpreted into `ℚ` at the
record boundary.  Python `datetime.date` values are modelled by their
proleptic-Gregorian ordinal (`date.toordinal`), exactly as CPython defines
them.  Network input (the `requests` responses) is modelled as explicit data
passed to each function, and every `try/except` of the source is modelled by
`Option`.
-/

namespace LottoTracker

/-! ## Character classes and small string utilities -/

/-- Characters matched by the Python regex class `\s` (ASCII range). -/
def isWs (c : Char) : Bool :=
  c = ' ' || c = '\t' || c = '\n' || c = '\r' || c = Char.ofNat 11 || c = Char.ofNat 12

/-- Decimal digit test, the regex class `[0-9]`. -/
def isDigitC (c : Char) : Bool := '0' ≤ c && c ≤ '9'

/-- ASCII letter test, the regex class `[A-Za-z]`. -/
def isAlphaC (c : Char) : Bool := ('a' ≤ c && c ≤ 'z') || ('A' ≤ c && c ≤ 'Z')

/-- Lower-casing of one character, modelling Python `str.lower` on ASCII text. -/
def lowC (c : Char) : Char := c.toLower

/-- Lower-casing of a character list, modelling Python `str.lower`. -/
def lowS (s : List Char) : List Char := s.map lowC

/-- Substring test, modelling the Python expression `needle in hay`. -/
def hasSub (needle : List Char) : List Char → Bool
  | [] => needle.isEmpty
  | c :: cs => needle.isPrefixOf (c :: cs) || hasSub needle cs

/-- Value of a list of decimal digits, most significant first. -/
def digitsToNat (ds : List Char) : ℕ :=
  ds.foldl (fun a c => 10 * a + (c.toNat - 48)) 0

/-! ## Exact decimals, the model of the Python float values of the program -/

/-- Exact decimal number `num / 10 ^ exp`.  All monetary values the program
computes are of this shape (digit strings scaled by powers of ten, or JSON
numbers divided by 100), and at these magnitudes Python float arithmetic is
exact, so this models it faithfully. -/
structure Dec where
  num : ℤ
  exp : ℕ
deriving Repr, DecidableEq

/-- Interpretation of an exact decimal as a rational number. -/
def Dec.toRat (d : Dec) : ℚ := (d.num : ℚ) / 10 ^ d.exp

/-- Strict comparison of two exact decimals (Python `<` on floats). -/
def Dec.blt (a b : Dec) : Bool := a.num * 10 ^ b.exp < b.num * 10 ^ a.exp

/-- Multiplication of an exact decimal by `10 ^ k` (the scale words
Million/Billion multiply by `1_000_000` / `1_000_000_000`). -/
def Dec.scale (d : Dec) (k : ℕ) : Dec := ⟨d.num * 10 ^ k, d.exp⟩

/-- Division of an exact decimal by `10 ^ k` (the `/ 100` and `/ 1000`
of the Veikkaus fetcher). -/
def Dec.divPow10 (d : Dec) (k : ℕ) : Dec := ⟨d.num, d.exp + k⟩

/-- The decimal value of a natural number. -/
def Dec.ofNat (n : ℕ) : Dec := ⟨n, 0⟩

/-- One comparison step of Python `max` (the accumulator is kept on ties). -/
def pyMaxStep (acc y : Dec) : Dec := if acc.blt y then y else acc

/-- Python `max` over a list (first maximal element wins), `None` on the empty
list where Python raises `ValueError`. -/
def pyMaxDec : List Dec → Option Dec
  | [] => none
  | x :: xs => some (xs.foldl pyMaxStep x)

/-- One comparison step of Python `min` (the accumulator is kept on ties). -/
def pyMinStep (acc y : ℕ) : ℕ := if y < acc then y else acc

/-- Python `min` over a list of naturals (first minimal element wins), `None`
on the empty list where Python raises `ValueError`. -/
def pyMinNat : List ℕ → Option ℕ
  | [] => none
  | x :: xs => some (xs.foldl pyMinStep x)

/-- Model of Python `float(s)` on a string of digits and dots (the only shape
the scrapers ever pass to `float`, after stripping commas): it succeeds when
there is at least one digit, at most one dot, and nothing else; otherwise
Python raises `ValueError`, modelled by `none`. -/
def pyFloat (cs : List Char) : Option Dec :=
  if ((cs.filter (fun c => c = '.')).length ≤ 1
      && cs.any isDigitC
      && cs.all (fun c => isDigitC c || c = '.')) then
    let ip := cs.takeWhile (fun c => c ≠ '.')
    let fp := (cs.dropWhile (fun c => c ≠ '.')).drop 1
    some ⟨(digitsToNat ip) * 10 ^ fp.length + digitsToNat fp, fp.length⟩
  else
    none

/-! ## Calendar model (CPython `datetime.date` ordinals) -/

/-- Gregorian leap-year test. -/
def isLeap (y : ℕ) : Bool := y % 4 = 0 && (y % 100 ≠ 0 || y % 400 = 0)

/-- Number of days of month `m` (1–12) of year `y`. -/
def daysInMonth (y m : ℕ) : ℕ :=
  match m with
  | 1 => 31 | 2 => if isLeap y then 29 else 28 | 3 => 31 | 4 => 30
  | 5 => 31 | 6 => 30 | 7 => 31 | 8 => 31
  | 9 => 30 | 10 => 31 | 11 => 30 | 12 => 31
  | _ => 0

/-- Days of year `y` that precede month `m`. -/
def daysBeforeMonth (y m : ℕ) : ℕ :=
  let base :=
    match m with
    | 1 => 0 | 2 => 31 | 3 => 59 | 4 => 90 | 5 => 120 | 6 => 151
    | 7 => 181 | 8 => 212 | 9 => 243 | 10 => 273 | 11 => 304 | 12 => 334
    | _ => 0
  if 3 ≤ m && isLeap y then base + 1 else base

/-- CPython `date(y, m, d).toordinal()`: day number in the proleptic Gregorian
calendar, with `0001-01-01` being day 1. -/
def toOrdinal (y m d : ℕ) : ℕ :=
  365 * (y - 1) + (y - 1) / 4 - (y - 1) / 100 + (y - 1) / 400 + daysBeforeMonth y m + d

/-- Inverse of `toOrdinal`: the `(year, month, day)` of an ordinal (the civil
from-days algorithm, shifted to CPython ordinals). -/
def dateFromOrdinal (o : ℕ) : ℕ × ℕ × ℕ :=
  let shifted := o + 305
  let era := shifted / 146097
  let doe := shifted % 146097
  let yoe := (doe - doe / 1460 + doe / 36524 - doe / 146096) / 365
  let doy := doe - (365 * yoe + yoe / 4 - yoe / 100)
  let mp := (5 * doy + 2) / 153
  let d := doy - (153 * mp + 2) / 5 + 1
  let m := if mp < 10 then mp + 3 else mp - 9
  let y := yoe + era * 400 + (if m ≤ 2 then 1 else 0)
  (y, m, d)

/-- Zero-padding of a decimal numeral to a given width. -/
def padNum (w n : ℕ) : String :=
  let s := toString n
  String.mk (List.replicate (w - s.length) '0') ++ s

/-- CPython `strftime('%Y-%m-%d')`. -/
def isoFmt (y m d : ℕ) : String :=
  padNum 4 y ++ "-" ++ padNum 2 m ++ "-" ++ padNum 2 d

/-- ISO rendering of an ordinal day number. -/
def isoOfOrdinal (o : ℕ) : String :=
  let ymd := dateFromOrdinal o
  isoFmt ymd.1 ymd.2.1 ymd.2.2

/-- CPython `date.weekday()` (Monday = 0) of an ordinal: day 1 was a Monday. -/
def pyWeekday (o : ℕ) : ℤ := ((o : ℤ) - 1) % 7

/-- A Python `datetime.now()` value: a calendar date plus the second of the
day.  The date is kept in component form because the program reads
`.year` and formats components directly. -/
structure PyDateTime where
  year : ℕ
  month : ℕ
  day : ℕ
  secs : ℕ
deriving Repr, DecidableEq

/-- Ordinal of the date part of a datetime. -/
def PyDateTime.ord (t : PyDateTime) : ℕ := toOrdinal t.year t.month t.day

/-- CPython `datetime.now().strftime('%Y-%m-%d')`. -/
def PyDateTime.isoDate (t : PyDateTime) : String := isoFmt t.year t.month t.day

example : toOrdinal 1 1 1 = 1 := by decide
example : dateFromOrdinal 1 = (1, 1, 1) := by decide
example : toOrdinal 2025 1 1 = 739252 := by decide
example : dateFromOrdinal 739252 = (2025, 1, 1) := by decide
example : dateFromOrdinal (toOrdinal 2024 2 29) = (2024, 2, 29) := by decide
example : dateFromOrdinal (toOrdinal 2024 3 1) = (2024, 3, 1) := by decide
example : dateFromOrdinal (toOrdinal 2025 12 31) = (2025, 12, 31) := by decide
example : isoOfOrdinal 739252 = "2025-01-01" := by decide
example : pyWeekday (toOrdinal 2025 1 1) = 2 := by decide

/-! ## Static configuration (src/update.py lines 7–30) -/

/-- The seven configured games, the key strings of the configuration dicts. -/
inductive GameId
  | LOTTO | VIKING | EJACKPOT | POWERBALL | MEGAMILLIONS | EUROMILLIONS | SUPERENALOTTO
deriving Repr, DecidableEq

/-- RTP_CONFIG (lines 8–12). -/
def RTP_CONFIG : GameId → ℚ
  | .LOTTO => 0.23 | .VIKING => 0.25 | .EJACKPOT => 0.32
  | .POWERBALL => 0.15 | .MEGAMILLIONS => 0.15 | .EUROMILLIONS => 0.20
  | .SUPERENALOTTO => 0.60

/-- ODDS_CONFIG (lines 14–18). -/
def ODDS_CONFIG : GameId → ℕ
  | .LOTTO => 18643560 | .VIKING => 61357560 | .EJACKPOT => 139838160
  | .POWERBALL => 292201338 | .MEGAMILLIONS => 302575350 | .EUROMILLIONS => 139838160
  | .SUPERENALOTTO => 622614630

/-- NAMES (lines 20–28). -/
def NAMES : GameId → String
  | .LOTTO => "Finnish Lotto"
  | .VIKING => "Vikinglotto"
  | .EJACKPOT => "Eurojackpot"
  | .POWERBALL => "US Powerball"
  | .MEGAMILLIONS => "Mega Millions"
  | .EUROMILLIONS => "EuroMillions"
  | .SUPERENALOTTO => "SuperEnalotto"

/-- The game dict every successful fetcher/scraper returns: each of the four
functions builds a dict literal with exactly these seven keys
(lines 87–95, 166–174, 308–316, 385–393). -/
structure Rec where
  name : String
  jackpot : ℚ
  price : ℚ
  next_draw : String
  currency : String
  odds_jackpot : ℕ
  base_rtp : ℚ

/-! ## Schedule helpers (src/update.py lines 33–75) -/

/-- The weekday-name table of `_next_weekday_date` (lines 35–38), applied via
`.get` to the lower-cased name. -/
def weekdayTable (s : List Char) : Option ℤ :=
  if s = "monday".toList then some 0
  else if s = "tuesday".toList then some 1
  else if s = "wednesday".toList then some 2
  else if s = "thursday".toList then some 3
  else if s = "friday".toList then some 4
  else if s = "saturday".toList then some 5
  else if s = "sunday".toList then some 6
  else none

/-- Days until the next occurrence of weekday `target` after the day with
ordinal `today`: `(target - today.weekday()) % 7`, with a same-day result
bumped to 7 (lines 43–45 and 55–57). -/
def deltaToWeekday (today : ℕ) (target : ℤ) : ℕ :=
  let d := (target - pyWeekday today) % 7
  (if d = 0 then 7 else d).toNat

/-- `_next_weekday_date` (lines 33–48): the date of the next strictly-future
occurrence of the named weekday, ISO formatted; `none` when the name is not a
weekday name. -/
def nextWeekdayDate (today : ℕ) (weekdayName : List Char) : Option String :=
  (weekdayTable (lowS weekdayName)).map fun target =>
    isoOfOrdinal (today + deltaToWeekday today target)

/-- `_next_multi_weekday_date` (lines 50–61): the earliest of the
next strictly-future occurrences of the given weekday indices, ISO formatted;
the `min` of an empty candidate list raises, caught as `none`. -/
def nextMultiWeekdayDate (today : ℕ) (idxs : List ℤ) : Option String :=
  (pyMinNat (idxs.map fun t => today + deltaToWeekday today t)).map isoOfOrdinal

/-- `_next_euromillions_draw_date` (lines 63–68): Tuesdays and Fridays. -/
def nextEuromillionsDrawDate (today : ℕ) : Option String :=
  nextMultiWeekdayDate today [1, 4]

/-- `_next_superenalotto_draw_date` (lines 70–75): Tue/Thu/Fri/Sat. -/
def nextSuperenalottoDrawDate (today : ℕ) : Option String :=
  nextMultiWeekdayDate today [1, 3, 4, 5]

example : nextMultiWeekdayDate (toOrdinal 2025 1 1) [1, 4] = some "2025-01-03" := by decide
example : nextWeekdayDate (toOrdinal 2025 1 1) "Wednesday".toList = some "2025-01-08" := by
  decide

/-! ## Regex machinery

Each Python regex of the source is modelled by a matcher that tries to match
at the head of the input and returns its capture groups (and, where `findall`
needs it, the rest of the input after the match).  `re.search` is the first
position, left to right, where the matcher succeeds; `re.findall` collects
non-overlapping matches left to right.  Greediness of the character classes is
maximal-munch, which for these patterns coincides with the backtracking
semantics except for the bounded `\d{1,2}` quantifiers, where the one-digit
retry is modelled explicitly. -/

/-- Case-insensitive literal match, returning the consumed characters and the
rest. -/
def litCI : List Char → List Char → Option (List Char × List Char)
  | [], cs => some ([], cs)
  | l :: ls, c :: cs =>
    if lowC c = lowC l then (litCI ls cs).map fun p => (c :: p.1, p.2) else none
  | _ :: _, [] => none

/-- Consume at most one character satisfying `p` (regex `X?` on a class). -/
def optCharIf (p : Char → Bool) : List Char → List Char
  | [] => []
  | c :: cs => if p c then cs else c :: cs

/-- Maximal nonempty run of characters satisfying `p` (regex `X+`). -/
def many1 (p : Char → Bool) (cs : List Char) : Option (List Char × List Char) :=
  let t := cs.takeWhile p
  if t.isEmpty then none else some (t, cs.dropWhile p)

/-- Maximal run of characters satisfying `p` (regex `X*`). -/
def many0 (p : Char → Bool) (cs : List Char) : List Char × List Char :=
  (cs.takeWhile p, cs.dropWhile p)

/-- Model of `re.search`: the first position, scanning left to right, where
the head matcher succeeds. -/
def searchFirst {α : Type} (m : List Char → Option α) : List Char → Option α
  | [] => none
  | c :: cs =>
    match m (c :: cs) with
    | some a => some a
    | none => searchFirst m cs

/-- Worker for `findAll`, fuelled by the input length (every match of the
matchers used here consumes at least one character). -/
def findAllAux {α : Type} (m : List Char → Option (α × List Char)) :
    ℕ → List Char → List α
  | 0, _ => []
  | _, [] => []
  | fuel + 1, c :: cs =>
    match m (c :: cs) with
    | some (a, rest) => a :: findAllAux m fuel rest
    | none => findAllAux m fuel cs

/-- Model of `re.findall`: non-overlapping matches, left to right. -/
def findAll {α : Type} (m : List Char → Option (α × List Char)) (cs : List Char) : List α :=
  findAllAux m cs.length cs

/-- Matcher for `\$\s?([0-9.]+)\s?(Million|Billion)` (IGNORECASE, line 158):
group 1 characters and whether group 2 was Billion. -/
def luMoneyAt (cs : List Char) : Option (List Char × Bool) :=
  match cs with
  | '$' :: r =>
    let r := optCharIf isWs r
    match many1 (fun c => isDigitC c || c = '.') r with
    | none => none
    | some (num, r) =>
      let r := optCharIf isWs r
      match litCI "million".toList r with
      | some _ => some (num, false)
      | none =>
        match litCI "billion".toList r with
        | some _ => some (num, true)
        | none => none
  | _ => none

/-- Alternation over a list of tagged case-insensitive literals, tried in
order (regex `(lit1|lit2|…)`): tag of the first literal matching and rest. -/
def matchAltsT {α : Type} : List (List Char × α) → List Char → Option (α × List Char)
  | [], _ => none
  | (lit, v) :: rest, cs =>
    match litCI lit cs with
    | some (_, r) => some (v, r)
    | none => matchAltsT rest cs

/-- The month-name alternation table
`(Jan|Feb|Mar|Apr|May|Jun|Jul|Aug|Sep|Oct|Nov|Dec)`, with month numbers. -/
def monthAlts : List (List Char × ℕ) :=
  [("jan".toList, 1), ("feb".toList, 2), ("mar".toList, 3), ("apr".toList, 4),
   ("may".toList, 5), ("jun".toList, 6), ("jul".toList, 7), ("aug".toList, 8),
   ("sep".toList, 9), ("oct".toList, 10), ("nov".toList, 11), ("dec".toList, 12)]

/-- Month-name alternation (IGNORECASE): month number and rest. -/
def matchMonth (cs : List Char) : Option (ℕ × List Char) :=
  matchAltsT monthAlts cs

/-- Matcher for `(Jan|…|Dec)[a-z]*\.?\s+(\d{1,2})` (IGNORECASE, line 133):
month number and day value.  Under `re.IGNORECASE` the class `[a-z]` also
matches upper-case letters, hence the alpha class here. -/
def luDateAt (cs : List Char) : Option (ℕ × ℕ) :=
  match matchMonth cs with
  | none => none
  | some (mo, r) =>
    let (_, r) := many0 isAlphaC r
    let r := optCharIf (fun c => c = '.') r
    match many1 isWs r with
    | none => none
    | some (_, r) =>
      match r with
      | a :: b :: _ =>
        if isDigitC a then
          if isDigitC b then some (mo, digitsToNat [a, b]) else some (mo, digitsToNat [a])
        else none
      | [a] => if isDigitC a then some (mo, digitsToNat [a]) else none
      | [] => none

/-- Group 1 of the Euro money patterns, `([0-9,]+(\.[0-9]+)?)`: captured
characters and rest. -/
def decNumber (r : List Char) : Option (List Char × List Char) :=
  match many1 (fun c => isDigitC c || c = ',') r with
  | none => none
  | some (ip, r) =>
    match r with
    | '.' :: r2 =>
      match many1 isDigitC r2 with
      | none => some (ip, '.' :: r2)
      | some (fp, r3) => some (ip ++ '.' :: fp, r3)
    | _ => some (ip, r)

/-- Matcher for `€\s?([0-9,]+(\.[0-9]+)?)\s?(Million)?` (IGNORECASE, lines 202
and 219): (group 1 characters, Million present) and rest. -/
def emMoneyAt (cs : List Char) : Option ((List Char × Bool) × List Char) :=
  match cs with
  | '€' :: r =>
    let r := optCharIf isWs r
    match decNumber r with
    | none => none
    | some (num, r) =>
      let r := optCharIf isWs r
      match litCI "million".toList r with
      | some (_, rest) => some ((num, true), rest)
      | none => some ((num, false), r)
  | _ => none

/-- Matcher for `€\s?([0-9,]+(\.[0-9]+)?)\s*(Million|Billion)?` (IGNORECASE,
line 359): (group 1 characters, scale group) and rest.  The scale group is
`none` when absent, `some false` for Million, `some true` for Billion. -/
def seMoneyAt (cs : List Char) : Option ((List Char × Option Bool) × List Char) :=
  match cs with
  | '€' :: r =>
    let r := optCharIf isWs r
    match decNumber r with
    | none => none
    | some (num, r) =>
      let (_, r2) := many0 isWs r
      match litCI "million".toList r2 with
      | some (_, rest) => some ((num, some false), rest)
      | none =>
        match litCI "billion".toList r2 with
        | some (_, rest) => some ((num, some true), rest)
        | none => some ((num, none), r2)
  | _ => none

/-- Matcher for `Estimated Jackpot\s+€\s?([0-9,.]+)\s*(Million|Billion)?`
(IGNORECASE, lines 339–343): group 1 characters and the scale group. -/
def seLabelAt (cs : List Char) : Option (List Char × Option Bool) :=
  match litCI "estimated jackpot".toList cs with
  | none => none
  | some (_, r) =>
    match many1 isWs r with
    | none => none
    | some (_, r) =>
      match r with
      | '€' :: r =>
        let r := optCharIf isWs r
        match many1 (fun c => isDigitC c || c = ',' || c = '.') r with
        | none => none
        | some (num, r) =>
          let (_, r2) := many0 isWs r
          match litCI "million".toList r2 with
          | some _ => some (num, some false)
          | none =>
            match litCI "billion".toList r2 with
            | some _ => some (num, some true)
            | none => some (num, none)
      | _ => none

/-- Ordinal-suffix alternation `(st|nd|rd|th)` (IGNORECASE), greedy-optional:
consumed characters and rest (empty consumption when absent). -/
def ordSuffixCI (r : List Char) : List Char × List Char :=
  match litCI "st".toList r with
  | some p => p
  | none =>
    match litCI "nd".toList r with
    | some p => p
    | none =>
      match litCI "rd".toList r with
      | some p => p
      | none =>
        match litCI "th".toList r with
        | some p => p
        | none => ([], r)

/-- Matcher for `Next Draw:?\s+([A-Za-z]+,?\s+\d{1,2}(st|nd|rd|th)?\s+[A-Za-z]+)`
(IGNORECASE, line 238): the captured group-1 text.  The bounded `\d{1,2}` is
tried with two digits first and one digit as the backtracking retry. -/
def emNextDrawAt (cs : List Char) : Option (List Char) :=
  match litCI "next draw".toList cs with
  | none => none
  | some (_, r) =>
    let r := optCharIf (fun c => c = ':') r
    match many1 isWs r with
    | none => none
    | some (_, r) =>
      match many1 isAlphaC r with
      | none => none
      | some (w1, r) =>
        let (comma, r) :=
          match r with
          | ',' :: rr => ([','], rr)
          | _ => ([], r)
        match many1 isWs r with
        | none => none
        | some (spA, r) =>
          let tail := fun (ds : List Char) (r1 : List Char) =>
            let (suf, r2) := ordSuffixCI r1
            match many1 isWs r2 with
            | none => none
            | some (spB, r3) =>
              match many1 isAlphaC r3 with
              | none => none
              | some (w2, _) => some (ds ++ suf ++ spB ++ w2)
          let digitPart :=
            match r with
            | a :: b :: rr =>
              if isDigitC a && isDigitC b then tail [a, b] rr <|> tail [a] (b :: rr)
              else if isDigitC a then tail [a] (b :: rr)
              else none
            | [a] => if isDigitC a then tail [a] [] else none
            | [] => none
          digitPart.map fun dtail => w1 ++ comma ++ spA ++ dtail

/-- Model of `re.sub(r'(\d+)(st|nd|rd|th)', r'\1', s)` (case-sensitive,
line 243), fuelled by the input length. -/
def subOrdinalsAux : ℕ → List Char → List Char
  | 0, cs => cs
  | _, [] => []
  | fuel + 1, c :: cs =>
    if isDigitC c then
      let run := (c :: cs).takeWhile isDigitC
      let rest := (c :: cs).dropWhile isDigitC
      match rest with
      | 's' :: 't' :: rr => run ++ subOrdinalsAux fuel rr
      | 'n' :: 'd' :: rr => run ++ subOrdinalsAux fuel rr
      | 'r' :: 'd' :: rr => run ++ subOrdinalsAux fuel rr
      | 't' :: 'h' :: rr => run ++ subOrdinalsAux fuel rr
      | _ => c :: subOrdinalsAux fuel cs
    else c :: subOrdinalsAux fuel cs

/-- Strip the day ordinal suffixes from the matched draw text (line 243). -/
def subOrdinals (cs : List Char) : List Char := subOrdinalsAux cs.length cs

/-- Matcher for `(\d{1,2})\s+(Jan|…|Dec)` (IGNORECASE, line 245): day value
and month number. -/
def dayMonthAt (cs : List Char) : Option (ℕ × ℕ) :=
  let cont := fun (d : ℕ) (r : List Char) =>
    match many1 isWs r with
    | none => none
    | some (_, r2) => (matchMonth r2).map fun p => (d, p.1)
  match cs with
  | a :: b :: rr =>
    if isDigitC a && isDigitC b then
      cont (digitsToNat [a, b]) rr <|> cont (digitsToNat [a]) (b :: rr)
    else if isDigitC a then cont (digitsToNat [a]) (b :: rr)
    else none
  | [a] => if isDigitC a then cont (digitsToNat [a]) [] else none
  | [] => none

/-- Matcher for `(ALT1|ALT2|…)\s*,?\s*\d{1,2}:\d{2}\s*(am|pm)?` (IGNORECASE,
lines 258–262, 270–273 and 283–287), parameterised by the alternation of
group 1: the canonical lower-case form of the alternative that matched.
Everything after `\d{2}` is optional, so the match succeeds as soon as the
clock pattern is present. -/
def relTimeAt (alts : List (List Char)) (cs : List Char) : Option (List Char) :=
  match matchAltsT (alts.map fun a => (a, a)) cs with
  | none => none
  | some (alt, r) =>
    let (_, r) := many0 isWs r
    let r := optCharIf (fun c => c = ',') r
    let (_, r) := many0 isWs r
    let checkTime := fun (r2 : List Char) =>
      match r2 with
      | ':' :: x :: y :: _ => isDigitC x && isDigitC y
      | _ => false
    match r with
    | a :: b :: rr =>
      if isDigitC a && isDigitC b then
        if checkTime rr then some alt else none
      else if isDigitC a then
        if checkTime (b :: rr) then some alt else none
      else none
    | _ => none

/-- The weekday-name alternation of lines 271 and 284. -/
def weekdayAltNames : List (List Char) :=
  ["monday".toList, "tuesday".toList, "wednesday".toList, "thursday".toList,
   "friday".toList, "saturday".toList, "sunday".toList]

/-! ## Shared month-day year resolution (lines 137–141 and 247–252)

Both scrapers resolve a month name plus day number to a concrete date the
same way: parse it in the current year (`strptime` raises on an invalid
day, caught by the surrounding `except`); if the resulting midnight datetime
is more than 60 days before `now`, re-build it in the next year
(`dt.replace(year=year + 1)`, which raises for February 29 of a year whose
successor is not a leap year, likewise caught); format as ISO. -/

/-- Whether midnight of `(y, m, d)` is strictly before `now` minus 60 days
(the comparison `dt < datetime.now() - timedelta(days=60)`). -/
def before60Days (y m d : ℕ) (now : PyDateTime) : Bool :=
  ((toOrdinal y m d : ℤ) < (now.ord : ℤ) - 60) ||
    ((toOrdinal y m d : ℤ) = (now.ord : ℤ) - 60 && 0 < now.secs)

/-- Year resolution of a matched month number and day number against `now`:
`none` models the date being dropped by the `except: pass`. -/
def resolveMonthDay (m d : ℕ) (now : PyDateTime) : Option String :=
  if 1 ≤ m && m ≤ 12 && 1 ≤ d && d ≤ daysInMonth now.year m then
    if before60Days now.year m d now then
      if d ≤ daysInMonth (now.year + 1) m then some (isoFmt (now.year + 1) m d)
      else none
    else some (isoFmt now.year m d)
  else none

/-! ## fetch_veikkaus (src/update.py lines 78–98) -/

/-- Weak comparison of two exact decimals (Python `<=` on floats). -/
def Dec.ble (a b : Dec) : Bool := a.num * 10 ^ b.exp ≤ b.num * 10 ^ a.exp

/-- The fields of `data[0]` the code reads: `jackpots` (the `amount` of each
entry, a JSON decimal), `gameRuleSet.basePrice`, and `drawTime` in epoch
milliseconds. -/
structure VDraw where
  jackpots : List Dec
  basePrice : Dec
  drawTime : ℤ

/-- A Veikkaus API response: HTTP status and the decoded JSON body (`none`
models `resp.json()` raising, caught by the function-level `except`). -/
structure VResp where
  status : ℕ
  data : Option (List VDraw)

/-- CPython `datetime.fromtimestamp(ms / 1000).strftime('%Y-%m-%d')` in a
local timezone `tzoff` seconds east of UTC (line 91). -/
def fromtimestampDate (ms : ℤ) (tzoff : ℤ) : String :=
  isoOfOrdinal (719163 + (ms + tzoff * 1000).fdiv 86400000).toNat

/-- `fetch_veikkaus` (lines 78–98).  The single `requests.get` of line 81 is
modelled by the one response passed in; `none` for the response models the
request raising (timeout/transport), caught at line 96.  Any status other
than 200 returns `None` at line 82, with no retry and no error value. -/
def fetch_veikkaus (gid : GameId) (resp : Option VResp) (tzoff : ℤ) : Option Rec :=
  match resp with
  | none => none
  | some resp =>
    if resp.status ≠ 200 then none
    else
      match resp.data with
      | none => none
      | some [] => none
      | some (draw :: _) =>
        match draw.jackpots with
        | [] => none
        | amt :: _ =>
          some { name := NAMES gid
                 jackpot := (amt.divPow10 2).toRat
                 price := (draw.basePrice.divPow10 2).toRat
                 next_draw := fromtimestampDate draw.drawTime tzoff
                 currency := "€"
                 odds_jackpot := ODDS_CONFIG gid
                 base_rtp := RTP_CONFIG gid }

/-! ## scrape_lotteryusa (src/update.py lines 101–181) -/

/-- A child node of the subtitle element: either a `<span>` (destroyed at
lines 154–155 before the text is read) or plain text (already stripped, as
`get_text(strip=True)` strips each string). -/
inductive SubNode
  | span (s : String)
  | text (s : String)

/-- A title element of class `c-state-short-info__title` together with the
siblings the code navigates to: the following `<time>` tag text and the
following subtitle element, when present. -/
structure LuTitleBox where
  text : String
  timeSib : Option String
  subtitle : Option (List SubNode)

/-- A LotteryUSA page response: HTTP status (never inspected by the code) and
the parsed title boxes of the page. -/
structure LuResp where
  status : ℕ
  titles : List LuTitleBox

/-- The text of the subtitle element after every `<span>` has been
decomposed (lines 154–157): concatenation of the non-span text. -/
def subtitleTextAfterDecompose (nodes : List SubNode) : List Char :=
  (nodes.filterMap fun n =>
    match n with
    | .span _ => none
    | .text s => some s.toList).flatten

/-- Line 119: the game name looked for inside a `Next … draw` title. -/
def luTargetName (gameKey : GameId) : List Char :=
  if gameKey = GameId.POWERBALL then "powerball".toList else "mega millions".toList

/-- One iteration of the `for title_box in titles` loop (lines 114–163),
threading the `(jackpot_val, date_str)` state.  `none` models the
`float(...)` of line 160 raising `ValueError`, which is caught only by the
function-level `except` and aborts the whole scrape. -/
def luProcessBox (gameKey : GameId) (now : PyDateTime) (st : Dec × String)
    (box : LuTitleBox) : Option (Dec × String) :=
  let text := lowS box.text.toList
  let st1 : Dec × String :=
    if hasSub "next".toList text && hasSub (luTargetName gameKey) text
        && hasSub "draw".toList text then
      match box.timeSib with
      | none => st
      | some dateText =>
        if hasSub "Today".toList dateText.toList then (st.1, now.isoDate)
        else if hasSub "Tomorrow".toList dateText.toList then
          (st.1, isoOfOrdinal (now.ord + 1))
        else
          match searchFirst luDateAt dateText.toList with
          | none => st
          | some (mo, dy) =>
            match resolveMonthDay mo dy now with
            | none => st
            | some s => (st.1, s)
    else st
  if hasSub "next".toList text && hasSub "est".toList text
      && hasSub "jackpot".toList text then
    match box.subtitle with
    | none => some st1
    | some nodes =>
      match searchFirst luMoneyAt (subtitleTextAfterDecompose nodes) with
      | none => some st1
      | some (num, isB) =>
        match pyFloat num with
        | none => none
        | some v => some (v.scale (if isB then 9 else 6), st1.2)
  else some st1

/-- The whole title-box loop, from the initial state. -/
def luFold (gameKey : GameId) (now : PyDateTime) :
    List LuTitleBox → Dec × String → Option (Dec × String)
  | [], st => some st
  | b :: bs, st =>
    match luProcessBox gameKey now st b with
    | none => none
    | some st2 => luFold gameKey now bs st2

/-- `scrape_lotteryusa` (lines 101–181).  The response status is never
inspected by the code; `jackpot_val` starts at `0` and `date_str` at the
`"Check Site"` sentinel (lines 107–108); a record is returned only when
`jackpot_val > 0` (line 165). -/
def scrape_lotteryusa (gameKey : GameId) (resp : Option LuResp) (now : PyDateTime) :
    Option Rec :=
  match resp with
  | none => none
  | some resp =>
    match luFold gameKey now resp.titles (Dec.ofNat 0, "Check Site") with
    | none => none
    | some (jackpotVal, dateStr) =>
      if (Dec.ofNat 0).blt jackpotVal then
        some { name := NAMES gameKey
               jackpot := jackpotVal.toRat
               price := 2
               next_draw := dateStr
               currency := "$"
               odds_jackpot := ODDS_CONFIG gameKey
               base_rtp := RTP_CONFIG gameKey }
      else none

/-! ## scrape_euromillions (src/update.py lines 184–323) -/

/-- A Lottery.ie page response: HTTP status (never inspected), the `<h1>`
texts, the flattened page text `soup.get_text(separator=" ", strip=True)`,
and the `<p>` texts. -/
structure EmResp where
  status : ℕ
  h1s : List String
  fullText : String
  ps : List String

/-- Value of one Euro money match (lines 204–208 and 223–227): strip commas
from group 1, `float` it, multiply by a million when the Million group
matched.  `none` models `float` raising, caught locally. -/
def emMoneyVal (g : List Char × Bool) : Option Dec :=
  (pyFloat (g.1.filter fun c => c ≠ ',')).map fun v =>
    if g.2 then v.scale 6 else v

/-- The `for h1 in soup.find_all("h1")` loop (lines 199–213): the first
`<h1>` containing `€` and `jackpot` whose first money match parses to a value
strictly above `15_000_000` sets `jackpot_val` and breaks; everything else
leaves it `0`. -/
def emH1Scan : List String → Dec
  | [] => Dec.ofNat 0
  | h :: hs =>
    let cs := h.toList
    if hasSub ['€'] cs && hasSub "jackpot".toList (lowS cs) then
      match searchFirst (fun s => (emMoneyAt s).map Prod.fst) cs with
      | none => emH1Scan hs
      | some g =>
        match emMoneyVal g with
        | none => emH1Scan hs
        | some v => if (Dec.ofNat 15000000).blt v then v else emH1Scan hs
    else emH1Scan hs

/-- The fallback candidate list (lines 219–231): every Euro money occurrence
of the page whose value parses and is strictly above `15_000_000`, in page
order. -/
def emCandidates (ft : List Char) : List Dec :=
  (findAll emMoneyAt ft).foldr
    (fun g acc =>
      match emMoneyVal g with
      | none => acc
      | some v => if (Dec.ofNat 15000000).blt v then v :: acc else acc)
    []

/-- The jackpot extraction of `scrape_euromillions` (lines 191–234): the
`<h1>` scan, then, while `jackpot_val` is still zero, the maximum of the
whole-page candidates (lines 233–234). -/
def emJackpotVal (h1s : List String) (ft : List Char) : Dec :=
  let v := emH1Scan h1s
  if v.num = 0 then
    match pyMaxDec (emCandidates ft) with
    | some m => m
    | none => Dec.ofNat 0
  else v

/-- Date pattern A (lines 238–254): the `Next Draw:` phrase, ordinal suffixes
stripped, day and month resolved against the current year. -/
def emDateA (ft : List Char) (now : PyDateTime) : Option String :=
  match searchFirst emNextDrawAt ft with
  | none => none
  | some g1 =>
    match searchFirst dayMonthAt (subOrdinals g1) with
    | none => none
    | some (dy, mo) => resolveMonthDay mo dy now

/-- The `for p in soup.find_all("p")` fallback of date pattern B
(lines 281–299). -/
def emPLoop (now : PyDateTime) : List String → Option String
  | [] => none
  | p :: ps =>
    match searchFirst
        (relTimeAt (["today".toList, "tomorrow".toList] ++ weekdayAltNames))
        p.toList with
    | none => emPLoop now ps
    | some tok =>
      if tok = "today".toList then some now.isoDate
      else if tok = "tomorrow".toList then some (isoOfOrdinal (now.ord + 1))
      else
        match nextWeekdayDate now.ord tok with
        | some s => some s
        | none => emPLoop now ps

/-- Date pattern B (lines 256–299): a `Today/Tomorrow, hh:mm` phrase, else a
`Weekday, hh:mm` phrase, else the `<p>`-tag fallback loop. -/
def emDateB (ft : List Char) (ps : List String) (now : PyDateTime) : Option String :=
  match searchFirst (relTimeAt ["today".toList, "tomorrow".toList]) ft with
  | some tok =>
    if tok = "today".toList then some now.isoDate
    else some (isoOfOrdinal (now.ord + 1))
  | none =>
    match searchFirst (relTimeAt weekdayAltNames) ft with
    | some wd => nextWeekdayDate now.ord wd
    | none => emPLoop now ps

/-- The date extraction of `scrape_euromillions` before the schedule fallback
(lines 236–299): pattern A, then pattern B while `date_str` is still the
sentinel. -/
def emDateStr (ft : List Char) (ps : List String) (now : PyDateTime) : String :=
  match emDateA ft now with
  | some s => s
  | none =>
    match emDateB ft ps now with
    | some s => s
    | none => "Check Site"

/-- Lines 301–305: when the page yielded no date, fall back to the pure
Tuesday/Friday schedule computation. -/
def emFinalDate (ft : List Char) (ps : List String) (now : PyDateTime) : String :=
  let d := emDateStr ft ps now
  if d = "Check Site" then
    match nextEuromillionsDrawDate now.ord with
    | some s => s
    | none => "Check Site"
  else d

/-- `scrape_euromillions` (lines 184–323).  A record is returned only when
`jackpot_val > 0` (line 307). -/
def scrape_euromillions (resp : Option EmResp) (now : PyDateTime) : Option Rec :=
  match resp with
  | none => none
  | some resp =>
    let jv := emJackpotVal resp.h1s resp.fullText.toList
    let ds := emFinalDate resp.fullText.toList resp.ps now
    if (Dec.ofNat 0).blt jv then
      some { name := NAMES .EUROMILLIONS
             jackpot := jv.toRat
             price := 2.5
             next_draw := ds
             currency := "€"
             odds_jackpot := ODDS_CONFIG .EUROMILLIONS
             base_rtp := RTP_CONFIG .EUROMILLIONS }
    else none

/-! ## scrape_superenalotto (src/update.py lines 326–400) -/

/-- A superenalotto.net page response: HTTP status (never inspected) and the
flattened page text. -/
structure SeResp where
  status : ℕ
  fullText : String

/-- Value of one SuperEnalotto money match (lines 345–354 and 362–370):
strip commas from group 1, `float` it, scale by the optional unit group.
`none` models `float` raising, caught locally. -/
def seMoneyVal (g : List Char × Option Bool) : Option Dec :=
  (pyFloat (g.1.filter fun c => c ≠ ',')).map fun v =>
    match g.2 with
    | some true => v.scale 9
    | some false => v.scale 6
    | none => v

/-- The labelled jackpot search (lines 339–356): the first
`Estimated Jackpot €…` match sets `jackpot_val` to its parsed value; a parse
failure leaves it `0`. -/
def seJackpotLabelled (ft : List Char) : Dec :=
  match searchFirst seLabelAt ft with
  | none => Dec.ofNat 0
  | some g =>
    match seMoneyVal g with
    | none => Dec.ofNat 0
    | some v => v

/-- The fallback candidate list (lines 359–374): every Euro money occurrence
whose value parses and is at least `2_000_000`, in page order. -/
def seCandidates (ft : List Char) : List Dec :=
  (findAll seMoneyAt ft).foldr
    (fun g acc =>
      match seMoneyVal g with
      | none => acc
      | some v => if (Dec.ofNat 2000000).ble v then v :: acc else acc)
    []

/-- The jackpot extraction of `scrape_superenalotto` (lines 338–376). -/
def seJackpotVal (ft : List Char) : Dec :=
  let v := seJackpotLabelled ft
  if v.num = 0 then
    match pyMaxDec (seCandidates ft) with
    | some m => m
    | none => Dec.ofNat 0
  else v

/-- `scrape_superenalotto` (lines 326–400).  No date extraction exists:
`date_str` is still the sentinel at line 379, so the schedule fallback always
supplies the date; a record is returned only when `jackpot_val > 0`
(line 384). -/
def scrape_superenalotto (resp : Option SeResp) (now : PyDateTime) : Option Rec :=
  match resp with
  | none => none
  | some resp =>
    let jv := seJackpotVal resp.fullText.toList
    let ds :=
      match nextSuperenalottoDrawDate now.ord with
      | some s => s
      | none => "Check Site"
    if (Dec.ofNat 0).blt jv then
      some { name := NAMES .SUPERENALOTTO
             jackpot := jv.toRat
             price := 1
             next_draw := ds
             currency := "€"
             odds_jackpot := ODDS_CONFIG .SUPERENALOTTO
             base_rtp := RTP_CONFIG .SUPERENALOTTO }
    else none

/-! ## update_database (src/update.py lines 407–440) -/

/-- The snapshot document written at lines 432–435. -/
structure Snapshot where
  last_updated : String
  games : List Rec

/-- The external world of one run: the response each endpoint would give,
the wall clock, and the local timezone offset. -/
structure Env where
  veikkaus : GameId → Option VResp
  lotteryusa : GameId → Option LuResp
  em : Option EmResp
  se : Option SeResp
  now : PyDateTime
  tzoff : ℤ

/-- CPython `datetime.now().strftime("%Y-%m-%d %H:%M:%S")` (line 433). -/
def fmtTimestamp (t : PyDateTime) : String :=
  t.isoDate ++ " " ++ padNum 2 (t.secs / 3600) ++ ":" ++
    padNum 2 (t.secs % 3600 / 60) ++ ":" ++ padNum 2 (t.secs % 60)

/-- The result the run obtains for one game (the per-game call sites of
lines 412–429). -/
def gameResult (env : Env) : GameId → Option Rec
  | .LOTTO => fetch_veikkaus .LOTTO (env.veikkaus .LOTTO) env.tzoff
  | .VIKING => fetch_veikkaus .VIKING (env.veikkaus .VIKING) env.tzoff
  | .EJACKPOT => fetch_veikkaus .EJACKPOT (env.veikkaus .EJACKPOT) env.tzoff
  | .POWERBALL => scrape_lotteryusa .POWERBALL (env.lotteryusa .POWERBALL) env.now
  | .MEGAMILLIONS => scrape_lotteryusa .MEGAMILLIONS (env.lotteryusa .MEGAMILLIONS) env.now
  | .EUROMILLIONS => scrape_euromillions env.em env.now
  | .SUPERENALOTTO => scrape_superenalotto env.se env.now

/-- The enumeration order of the run: the Veikkaus loop list of line 412
followed by the four explicit calls of lines 417–429. -/
def gameOrder : List GameId :=
  [.LOTTO, .VIKING, .EJACKPOT, .POWERBALL, .MEGAMILLIONS, .EUROMILLIONS, .SUPERENALOTTO]

/-- `update_database` (lines 407–440): sequentially run every game, appending
each successful record to `games_list`, then stamp the wall clock.  Writing
the JSON file is the persistence collaborator, outside the returned value. -/
def update_database (env : Env) : Snapshot :=
  let games0 : List Rec := []
  let games1 :=
    match fetch_veikkaus .LOTTO (env.veikkaus .LOTTO) env.tzoff with
    | some g => games0 ++ [g]
    | none => games0
  let games2 :=
    match fetch_veikkaus .VIKING (env.veikkaus .VIKING) env.tzoff with
    | some g => games1 ++ [g]
    | none => games1
  let games3 :=
    match fetch_veikkaus .EJACKPOT (env.veikkaus .EJACKPOT) env.tzoff with
    | some g => games2 ++ [g]
    | none => games2
  let games4 :=
    match scrape_lotteryusa .POWERBALL (env.lotteryusa .POWERBALL) env.now with
    | some g => games3 ++ [g]
    | none => games3
  let games5 :=
    match scrape_lotteryusa .MEGAMILLIONS (env.lotteryusa .MEGAMILLIONS) env.now with
    | some g => games4 ++ [g]
    | none => games4
  let games6 :=
    match scrape_euromillions env.em env.now with
    | some g => games5 ++ [g]
    | none => games5
  let games7 :=
    match scrape_superenalotto env.se env.now with
    | some g => games6 ++ [g]
    | none => games6
  { last_updated := fmtTimestamp env.now, games := games7 }

/-! ## Order semantics of the exact decimals -/

theorem Dec.toRat_ofNat (n : ℕ) : (Dec.ofNat n).toRat = n := by
  simp [Dec.ofNat, Dec.toRat]

theorem Dec.blt_iff (a b : Dec) : a.blt b = true ↔ a.toRat < b.toRat := by
  simp only [Dec.blt, Dec.toRat, decide_eq_true_eq]
  rw [div_lt_div_iff₀ (by positivity) (by positivity)]
  constructor <;> intro h <;> exact_mod_cast h

theorem Dec.ble_iff (a b : Dec) : a.ble b = true ↔ a.toRat ≤ b.toRat := by
  simp only [Dec.ble, Dec.toRat, decide_eq_true_eq]
  rw [div_le_div_iff₀ (by positivity) (by positivity)]
  constructor <;> intro h <;> exact_mod_cast h

theorem Dec.zero_blt_iff (b : Dec) : (Dec.ofNat 0).blt b = true ↔ 0 < b.num := by
  simp [Dec.blt, Dec.ofNat]

/-! ## Python max and min as folds -/

theorem pyFoldMax_mem (l : List Dec) (a : Dec) :
    l.foldl pyMaxStep a = a ∨ l.foldl pyMaxStep a ∈ l := by
  induction l generalizing a with
  | nil => simp
  | cons y ys ih =>
    rw [List.foldl_cons]
    rcases ih (pyMaxStep a y) with h | h
    · rw [h]
      unfold pyMaxStep
      split
      · right; exact List.mem_cons_self _ _
      · left; rfl
    · right; exact List.mem_cons_of_mem _ h

theorem pyFoldMax_le (l : List Dec) (a : Dec) :
    a.toRat ≤ (l.foldl pyMaxStep a).toRat ∧
      ∀ x ∈ l, x.toRat ≤ (l.foldl pyMaxStep a).toRat := by
  induction l generalizing a with
  | nil => simp
  | cons y ys ih =>
    rw [List.foldl_cons]
    obtain ⟨h1, h2⟩ := ih (pyMaxStep a y)
    have hay : a.toRat ≤ (pyMaxStep a y).toRat ∧ y.toRat ≤ (pyMaxStep a y).toRat := by
      unfold pyMaxStep
      split
      · next hb => exact ⟨le_of_lt ((Dec.blt_iff a y).mp hb), le_refl _⟩
      · next hb => exact ⟨le_refl _, le_of_not_lt (fun hlt =>
          hb ((Dec.blt_iff a y).mpr hlt))⟩
    refine ⟨le_trans hay.1 h1, ?_⟩
    intro x hx
    rcases List.mem_cons.mp hx with rfl | hx
    · exact le_trans hay.2 h1
    · exact h2 x hx

theorem pyMaxDec_spec (l : List Dec) (m : Dec) (h : pyMaxDec l = some m) :
    m ∈ l ∧ ∀ x ∈ l, x.toRat ≤ m.toRat := by
  cases l with
  | nil => simp [pyMaxDec] at h
  | cons x xs =>
    simp only [pyMaxDec, Option.some.injEq] at h
    subst h
    refine ⟨?_, ?_⟩
    · rcases pyFoldMax_mem xs x with h | h
      · rw [h]; exact List.mem_cons_self _ _
      · exact List.mem_cons_of_mem _ h
    · intro z hz
      obtain ⟨h1, h2⟩ := pyFoldMax_le xs x
      rcases List.mem_cons.mp hz with rfl | hz
      · exact h1
      · exact h2 z hz

theorem pyFoldMin_mem (l : List ℕ) (a : ℕ) :
    l.foldl pyMinStep a = a ∨ l.foldl pyMinStep a ∈ l := by
  induction l generalizing a with
  | nil => simp
  | cons y ys ih =>
    rw [List.foldl_cons]
    rcases ih (pyMinStep a y) with h | h
    · rw [h]
      unfold pyMinStep
      split
      · right; exact List.mem_cons_self _ _
      · left; rfl
    · right; exact List.mem_cons_of_mem _ h

theorem pyFoldMin_le (l : List ℕ) (a : ℕ) :
    l.foldl pyMinStep a ≤ a ∧ ∀ x ∈ l, l.foldl pyMinStep a ≤ x := by
  induction l generalizing a with
  | nil => simp
  | cons y ys ih =>
    rw [List.foldl_cons]
    obtain ⟨h1, h2⟩ := ih (pyMinStep a y)
    have hay : pyMinStep a y ≤ a ∧ pyMinStep a y ≤ y := by
      unfold pyMinStep
      split_ifs with hb <;> omega
    refine ⟨le_trans h1 hay.1, ?_⟩
    intro x hx
    rcases List.mem_cons.mp hx with rfl | hx
    · exact le_trans h1 hay.2
    · exact h2 x hx

theorem pyMinNat_spec (l : List ℕ) (m : ℕ) (h : pyMinNat l = some m) :
    m ∈ l ∧ ∀ x ∈ l, m ≤ x := by
  cases l with
  | nil => simp [pyMinNat] at h
  | cons x xs =>
    simp only [pyMinNat, Option.some.injEq] at h
    subst h
    refine ⟨?_, ?_⟩
    · rcases pyFoldMin_mem xs x with h | h
      · rw [h]; exact List.mem_cons_self _ _
      · exact List.mem_cons_of_mem _ h
    · intro z hz
      obtain ⟨h1, h2⟩ := pyFoldMin_le xs x
      rcases List.mem_cons.mp hz with rfl | hz
      · exact h1
      · exact h2 z hz

theorem pyFoldMin_map_add (c : ℕ) (l : List ℕ) (a : ℕ) :
    (l.map (c + ·)).foldl pyMinStep (c + a) = c + l.foldl pyMinStep a := by
  induction l generalizing a with
  | nil => rfl
  | cons y ys ih =>
    simp only [List.map_cons, List.foldl_cons]
    have hstep : pyMinStep (c + a) (c + y) = c + pyMinStep a y := by
      unfold pyMinStep
      split_ifs with h1 h2 <;> omega
    rw [hstep, ih]

theorem pyMinNat_map_add (c : ℕ) (l : List ℕ) :
    pyMinNat (l.map (c + ·)) = (pyMinNat l).map (c + ·) := by
  cases l with
  | nil => rfl
  | cons x xs =>
    simp only [List.map_cons, pyMinNat, Option.map_some']
    exact congrArg some (pyFoldMin_map_add c xs x)

/-! ## The schedule computation, characterised -/

theorem deltaToWeekday_bounds (today : ℕ) (t : ℤ) :
    1 ≤ deltaToWeekday today t ∧ deltaToWeekday today t ≤ 7 := by
  simp only [deltaToWeekday]
  have h0 : 0 ≤ (t - pyWeekday today) % 7 := Int.emod_nonneg _ (by norm_num)
  have h7 : (t - pyWeekday today) % 7 < 7 := Int.emod_lt_of_pos _ (by norm_num)
  split_ifs with h
  · simp
  · omega

/-- The schedule computation returns exactly the minimum of the per-weekday
next-occurrence dates, each between 1 and 7 days out, so the result is
always strictly in the future. -/
theorem nextMultiWeekdayDate_spec (today : ℕ) (idxs : List ℤ) (h : idxs ≠ []) :
    ∃ m, pyMinNat (idxs.map (deltaToWeekday today)) = some m ∧
      nextMultiWeekdayDate today idxs = some (isoOfOrdinal (today + m)) ∧
      m ∈ idxs.map (deltaToWeekday today) ∧
      (∀ x ∈ idxs.map (deltaToWeekday today), m ≤ x) ∧
      1 ≤ m ∧ m ≤ 7 := by
  have hmap : idxs.map (fun t => today + deltaToWeekday today t)
      = (idxs.map (deltaToWeekday today)).map (today + ·) := by
    rw [List.map_map]; rfl
  obtain ⟨m, hm⟩ : ∃ m, pyMinNat (idxs.map (deltaToWeekday today)) = some m := by
    cases idxs with
    | nil => exact absurd rfl h
    | cons t ts => exact ⟨_, rfl⟩
  obtain ⟨hmem, hle⟩ := pyMinNat_spec _ _ hm
  refine ⟨m, hm, ?_, hmem, hle, ?_⟩
  · simp only [nextMultiWeekdayDate, hmap, pyMinNat_map_add, hm, Option.map_some']
  · obtain ⟨t0, _, ht0⟩ := List.mem_map.mp hmem
    have := deltaToWeekday_bounds today t0
    omega

/-! ## Jackpot extraction, characterised -/

theorem Dec.num_pos_of_blt (n : ℕ) (v : Dec) (hn : 0 < n)
    (h : (Dec.ofNat n).blt v = true) : 0 < v.num := by
  simp only [Dec.blt, Dec.ofNat, decide_eq_true_eq, pow_zero, mul_one] at h
  have hp : (0 : ℤ) < (n : ℤ) * 10 ^ v.exp := by positivity
  omega

theorem emH1Scan_cases (h1s : List String) :
    emH1Scan h1s = Dec.ofNat 0 ∨ (Dec.ofNat 15000000).blt (emH1Scan h1s) = true := by
  induction h1s with
  | nil => left; rfl
  | cons h hs ih =>
    simp only [emH1Scan]
    split_ifs with hc
    · cases hsf : searchFirst (fun s => (emMoneyAt s).map Prod.fst) h.toList with
      | none => exact ih
      | some g =>
        dsimp only
        cases hm : emMoneyVal g with
        | none => exact ih
        | some v =>
          dsimp only
          split_ifs with hb
          · right; exact hb
          · exact ih
    · exact ih

theorem emCandidates_mem (ft : List Char) :
    ∀ v ∈ emCandidates ft, (Dec.ofNat 15000000).blt v = true := by
  unfold emCandidates
  generalize findAll emMoneyAt ft = L
  induction L with
  | nil => intro v hv; simp at hv
  | cons g L ih =>
    intro v hv
    rw [List.foldr_cons] at hv
    cases hm : emMoneyVal g with
    | none => simp only [hm] at hv; exact ih v hv
    | some w =>
      simp only [hm] at hv
      split_ifs at hv with hb
      · rcases List.mem_cons.mp hv with rfl | hv
        · exact hb
        · exact ih v hv
      · exact ih v hv

theorem seCandidates_mem (ft : List Char) :
    ∀ v ∈ seCandidates ft, (Dec.ofNat 2000000).ble v = true := by
  unfold seCandidates
  generalize findAll seMoneyAt ft = L
  induction L with
  | nil => intro v hv; simp at hv
  | cons g L ih =>
    intro v hv
    rw [List.foldr_cons] at hv
    cases hm : seMoneyVal g with
    | none => simp only [hm] at hv; exact ih v hv
    | some w =>
      simp only [hm] at hv
      split_ifs at hv with hb
      · rcases List.mem_cons.mp hv with rfl | hv
        · exact hb
        · exact ih v hv
      · exact ih v hv

/-- Whenever the EuroMillions jackpot value passes the positivity gate it in
fact exceeds the 15 000 000 floor: both the labelled path and the fallback
scan only ever produce values above it. -/
theorem emJackpotVal_gt (h1s : List String) (ft : List Char)
    (h : (Dec.ofNat 0).blt (emJackpotVal h1s ft) = true) :
    (Dec.ofNat 15000000).blt (emJackpotVal h1s ft) = true := by
  simp only [emJackpotVal] at h ⊢
  rcases emH1Scan_cases h1s with h0 | hgt
  · rw [h0] at h ⊢
    rw [if_pos (show (Dec.ofNat 0).num = 0 from rfl)] at h ⊢
    revert h
    cases hm : pyMaxDec (emCandidates ft) with
    | none => intro h; exact absurd h (by decide)
    | some mx =>
      intro h
      dsimp only at h ⊢
      exact emCandidates_mem ft mx (pyMaxDec_spec _ _ hm).1
  · have hnum := Dec.num_pos_of_blt 15000000 _ (by norm_num) hgt
    rw [if_neg (by omega)] at h ⊢
    exact hgt

/-! ## The claims -/

/-- C4: for every configured weekday set and every current date, the schedule
fallback returns the minimum over the configured weekdays of today plus
`(target_weekday - today_weekday) mod 7` days with a same-day result treated
as 7, so the result is strictly in the future and never today; the
single-weekday variant behaves the same way on its one weekday. -/
theorem c4_schedule_next_occurrence :
    (∀ (today : ℕ) (idxs : List ℤ), idxs ≠ [] →
      ∃ m, nextMultiWeekdayDate today idxs = some (isoOfOrdinal (today + m)) ∧
        m ∈ idxs.map (deltaToWeekday today) ∧
        (∀ x ∈ idxs.map (deltaToWeekday today), m ≤ x) ∧
        1 ≤ m ∧ m ≤ 7 ∧ today < today + m) ∧
    (∀ (today : ℕ) (name : List Char) (target : ℤ),
      weekdayTable (lowS name) = some target →
      nextWeekdayDate today name
          = some (isoOfOrdinal (today + deltaToWeekday today target)) ∧
        1 ≤ deltaToWeekday today target ∧ deltaToWeekday today target ≤ 7) := by
  constructor
  · intro today idxs h
    obtain ⟨m, hmin, heq, hmem, hle, h1, h7⟩ := nextMultiWeekdayDate_spec today idxs h
    exact ⟨m, heq, hmem, hle, h1, h7, by omega⟩
  · intro today name target h
    refine ⟨?_, (deltaToWeekday_bounds today target).1, (deltaToWeekday_bounds today target).2⟩
    simp only [nextWeekdayDate, h, Option.map_some']

/-- C4 witness: with today a Wednesday (2025-01-01) and schedule
{Tuesday, Friday} the result is the Friday two days out, and a
single-weekday Wednesday schedule gives the Wednesday seven days later. -/
theorem c4_schedule_next_occurrence_witness :
    nextMultiWeekdayDate (toOrdinal 2025 1 1) [1, 4] = some "2025-01-03" ∧
    nextWeekdayDate (toOrdinal 2025 1 1) "Wednesday".toList = some "2025-01-08" ∧
    (∃ m, nextMultiWeekdayDate (toOrdinal 2025 1 1) [1, 4]
          = some (isoOfOrdinal (toOrdinal 2025 1 1 + m)) ∧
        m ∈ ([1, 4] : List ℤ).map (deltaToWeekday (toOrdinal 2025 1 1)) ∧
        (∀ x ∈ ([1, 4] : List ℤ).map (deltaToWeekday (toOrdinal 2025 1 1)), m ≤ x) ∧
        1 ≤ m ∧ m ≤ 7 ∧ toOrdinal 2025 1 1 < toOrdinal 2025 1 1 + m) :=
  ⟨by decide, by decide,
    c4_schedule_next_occurrence.1 (toOrdinal 2025 1 1) [1, 4] (by decide)⟩

/-- C5: a page whose text yields no parseable jackpot amount produces no
record at all — the scrapers return a record only when the extracted
jackpot value is strictly positive, so a record with jackpot `0.0` is
impossible, and a zero (unset) extraction state yields `none`. -/
theorem c5_unparseable_never_zero :
    (∀ gk resp now r, scrape_lotteryusa gk resp now = some r → 0 < r.jackpot) ∧
    (∀ resp now r, scrape_superenalotto resp now = some r → 0 < r.jackpot) ∧
    (∀ (gk : GameId) (rr : LuResp) (now : PyDateTime) (jv : Dec) (ds : String),
      luFold gk now rr.titles (Dec.ofNat 0, "Check Site") = some (jv, ds) → jv.num = 0 →
      scrape_lotteryusa gk (some rr) now = none) ∧
    (∀ (rr : SeResp) (now : PyDateTime), (seJackpotVal rr.fullText.toList).num = 0 →
      scrape_superenalotto (some rr) now = none) := by
  refine ⟨?_, ?_, ?_, ?_⟩
  · intro gk resp now r h
    cases resp with
    | none => simp [scrape_lotteryusa] at h
    | some rr =>
      simp only [scrape_lotteryusa] at h
      revert h
      cases hf : luFold gk now rr.titles (Dec.ofNat 0, "Check Site") with
      | none => intro h; exact Option.noConfusion h
      | some st =>
        obtain ⟨jv, ds⟩ := st
        intro h
        dsimp only at h
        split_ifs at h with hb
        injection h with h
        subst h
        simpa [Dec.toRat_ofNat] using (Dec.blt_iff _ _).mp hb
  · intro resp now r h
    cases resp with
    | none => simp [scrape_superenalotto] at h
    | some rr =>
      simp only [scrape_superenalotto] at h
      split_ifs at h with hb
      injection h with h
      subst h
      simpa [Dec.toRat_ofNat] using (Dec.blt_iff _ _).mp hb
  · intro gk rr now jv ds hf hz
    simp only [scrape_lotteryusa, hf]
    rw [if_neg]
    intro hb
    exact absurd ((Dec.zero_blt_iff jv).mp hb) (by omega)
  · intro rr now hz
    simp only [scrape_superenalotto]
    rw [if_neg]
    intro hb
    exact absurd ((Dec.zero_blt_iff _).mp hb) (by omega)

/-- C5 witness: a page with no money pattern at all gives no record, and a
page with a parsed jackpot gives a strictly positive one. -/
theorem c5_unparseable_never_zero_witness :
    scrape_superenalotto (some ⟨200, "no jackpot figures here"⟩) ⟨2025, 1, 1, 0⟩ = none ∧
    0 < ((scrape_lotteryusa GameId.POWERBALL
        (some ⟨200, [⟨"Next est. jackpot", none, some [SubNode.text "$20 Million"]⟩]⟩)
        ⟨2025, 1, 1, 0⟩).map Rec.jackpot).getD 0 := by
  constructor
  · exact c5_unparseable_never_zero.2.2.2 ⟨200, "no jackpot figures here"⟩ ⟨2025, 1, 1, 0⟩
      (by decide)
  · have hmap : (scrape_lotteryusa GameId.POWERBALL
        (some ⟨200, [⟨"Next est. jackpot", none, some [SubNode.text "$20 Million"]⟩]⟩)
        ⟨2025, 1, 1, 0⟩).map Rec.jackpot = some (Dec.toRat ⟨20000000, 0⟩) := rfl
    rcases Option.map_eq_some'.mp hmap with ⟨r, hr, hj⟩
    have hpos := c5_unparseable_never_zero.1 GameId.POWERBALL _ _ r hr
    rw [hmap, Option.getD_some, ← hj]
    exact hpos

/-- C2: the claim fails for the LotteryUSA scraper — it has no schedule
fallback, so a page with a jackpot but no extractable date yields a record
whose `next_draw` is the `"Check Site"` sentinel, not a concrete date. -/
theorem c2_counterexample :
    (scrape_lotteryusa GameId.POWERBALL
        (some ⟨200, [⟨"Next est. jackpot", none, some [SubNode.text "$100 Million"]⟩]⟩)
        ⟨2025, 1, 1, 0⟩).map Rec.next_draw = some "Check Site" := by decide

/-- C2 (amended): for the SuperEnalotto and EuroMillions scrapers, a record
returned when no draw date was extracted from the page carries the pure
weekly-schedule fallback date, a concrete date one to seven days in the
future; for the LotteryUSA games no schedule fallback exists and the sentinel
is returned instead.  Date absence never causes the record to be dropped. -/
theorem c2_schedule_fallback_on_resolved_jackpot :
    (∀ resp now r, scrape_superenalotto resp now = some r →
      ∃ m, 1 ≤ m ∧ m ≤ 7 ∧ r.next_draw = isoOfOrdinal (now.ord + m)) ∧
    (∀ resp now r, emDateStr resp.fullText.toList resp.ps now = "Check Site" →
      scrape_euromillions (some resp) now = some r →
      ∃ m, 1 ≤ m ∧ m ≤ 7 ∧ r.next_draw = isoOfOrdinal (now.ord + m)) := by
  constructor
  · intro resp now r h
    cases resp with
    | none => simp [scrape_superenalotto] at h
    | some rr =>
      obtain ⟨m, hmin, heq, hmem, hle, h1, h7⟩ :=
        nextMultiWeekdayDate_spec now.ord [1, 3, 4, 5] (by decide)
      simp only [scrape_superenalotto, nextSuperenalottoDrawDate, heq] at h
      split_ifs at h with hb
      injection h with h
      subst h
      exact ⟨m, h1, h7, rfl⟩
  · intro resp now r hds h
    obtain ⟨m, hmin, heq, hmem, hle, h1, h7⟩ :=
      nextMultiWeekdayDate_spec now.ord [1, 4] (by decide)
    simp only [scrape_euromillions, emFinalDate, nextEuromillionsDrawDate, hds, heq,
      if_pos] at h
    split_ifs at h with hb
    injection h with h
    subst h
    exact ⟨m, h1, h7, rfl⟩

/-- C2 witness: a SuperEnalotto record obtained on a Wednesday carries the
Thursday one day out as its next draw. -/
theorem c2_schedule_fallback_on_resolved_jackpot_witness :
    ∃ m, 1 ≤ m ∧ m ≤ 7 ∧
      (scrape_superenalotto (some ⟨200, "Estimated Jackpot € 73 Million"⟩)
          ⟨2025, 1, 1, 0⟩).map Rec.next_draw
        = some (isoOfOrdinal (toOrdinal 2025 1 1 + m)) := by
  have hs : (scrape_superenalotto (some ⟨200, "Estimated Jackpot € 73 Million"⟩)
      ⟨2025, 1, 1, 0⟩).isSome = true := rfl
  rcases hsc : scrape_superenalotto (some ⟨200, "Estimated Jackpot € 73 Million"⟩)
      ⟨2025, 1, 1, 0⟩ with _ | r
  · rw [hsc] at hs; exact absurd hs (by decide)
  · obtain ⟨m, h1, h7, hnd⟩ :=
      c2_schedule_fallback_on_resolved_jackpot.1 _ ⟨2025, 1, 1, 0⟩ r hsc
    exact ⟨m, h1, h7, by rw [Option.map_some', hnd]; rfl⟩

/-- C1: the claim fails for the SuperEnalotto scraper — its labelled
`Estimated Jackpot` path applies no per-game minimum, so a candidate of
`1 000 000`, at or below the `2 000 000` floor the same function uses in its
fallback scan, is still promoted to a record. -/
theorem c1_counterexample :
    (scrape_superenalotto (some ⟨200, "Estimated Jackpot € 1 Million"⟩)
        ⟨2025, 1, 1, 0⟩).map Rec.jackpot = some 1000000 ∧
    (1000000 : ℚ) ≤ 2000000 := by
  constructor
  · have h : (scrape_superenalotto (some ⟨200, "Estimated Jackpot € 1 Million"⟩)
        ⟨2025, 1, 1, 0⟩).map Rec.jackpot = some (Dec.toRat ⟨1000000, 0⟩) := rfl
    rw [h]
    simp only [Option.some.injEq]
    norm_num [Dec.toRat]
  · norm_num

/-- C1 (amended): only the EuroMillions scraper enforces its configured
minimum plausible jackpot — every record it returns has a jackpot strictly
above 15 000 000, and a candidate at or below it is rejected (the scraper
returns `None`, there being no further source).  The LotteryUSA and
SuperEnalotto scrapers promote any strictly positive amount, and the Veikkaus
fetcher applies no floor at all (it promotes even a zero jackpot). -/
theorem c1_minimum_plausible_jackpot :
    (∀ resp now r, scrape_euromillions resp now = some r → 15000000 < r.jackpot) ∧
    (∀ gk resp now r, scrape_lotteryusa gk resp now = some r → 0 < r.jackpot) ∧
    (∀ resp now r, scrape_superenalotto resp now = some r → 0 < r.jackpot) ∧
    (fetch_veikkaus GameId.LOTTO
        (some ⟨200, some [⟨[⟨0, 0⟩], ⟨300, 0⟩, 1735689600000⟩]⟩) 0).map Rec.jackpot
      = some 0 := by
  refine ⟨?_, ?_, ?_, ?_⟩
  · intro resp now r h
    cases resp with
    | none => simp [scrape_euromillions] at h
    | some rr =>
      simp only [scrape_euromillions] at h
      split_ifs at h with hb
      injection h with h
      subst h
      have h15 := emJackpotVal_gt rr.h1s rr.fullText.toList hb
      simpa [Dec.toRat_ofNat] using (Dec.blt_iff _ _).mp h15
  · intro gk resp now r h
    cases resp with
    | none => simp [scrape_lotteryusa] at h
    | some rr =>
      simp only [scrape_lotteryusa] at h
      revert h
      cases hf : luFold gk now rr.titles (Dec.ofNat 0, "Check Site") with
      | none => intro h; exact Option.noConfusion h
      | some st =>
        obtain ⟨jv, ds⟩ := st
        intro h
        dsimp only at h
        split_ifs at h with hb
        injection h with h
        subst h
        simpa [Dec.toRat_ofNat] using (Dec.blt_iff _ _).mp hb
  · intro resp now r h
    cases resp with
    | none => simp [scrape_superenalotto] at h
    | some rr =>
      simp only [scrape_superenalotto] at h
      split_ifs at h with hb
      injection h with h
      subst h
      simpa [Dec.toRat_ofNat] using (Dec.blt_iff _ _).mp hb
  · have h : (fetch_veikkaus GameId.LOTTO
        (some ⟨200, some [⟨[⟨0, 0⟩], ⟨300, 0⟩, 1735689600000⟩]⟩) 0).map Rec.jackpot
        = some (Dec.toRat ⟨0, 2⟩) := rfl
    rw [h]
    simp only [Option.some.injEq]
    norm_num [Dec.toRat]

/-- C1 witness: a EuroMillions hero title of €110 Million yields a record
whose jackpot exceeds the 15 000 000 floor. -/
theorem c1_minimum_plausible_jackpot_witness :
    15000000 < ((scrape_euromillions
        (some ⟨200, ["€110 Million Jackpot"], "", []⟩)
        ⟨2025, 1, 1, 0⟩).map Rec.jackpot).getD 0 := by
  have hmap : (scrape_euromillions (some ⟨200, ["€110 Million Jackpot"], "", []⟩)
      ⟨2025, 1, 1, 0⟩).map Rec.jackpot = some (Dec.toRat ⟨110000000, 0⟩) := rfl
  rcases Option.map_eq_some'.mp hmap with ⟨r, hr, hj⟩
  have h15 := c1_minimum_plausible_jackpot.1 _ ⟨2025, 1, 1, 0⟩ r hr
  rw [hmap, Option.getD_some, ← hj]
  exact h15

/-- C3: the claim fails — the retrieval code has no retry logic and no typed
failures: a 429 response with a perfectly valid body is handled exactly like
any other non-200 status, returning `None` after the single request, while
the same body under status 200 succeeds. -/
theorem c3_counterexample :
    fetch_veikkaus GameId.LOTTO
        (some ⟨429, some [⟨[⟨10000000000, 0⟩], ⟨300, 0⟩, 1735689600000⟩]⟩) 0 = none ∧
    fetch_veikkaus GameId.LOTTO
        (some ⟨500, some [⟨[⟨10000000000, 0⟩], ⟨300, 0⟩, 1735689600000⟩]⟩) 0 = none ∧
    (fetch_veikkaus GameId.LOTTO
        (some ⟨200, some [⟨[⟨10000000000, 0⟩], ⟨300, 0⟩, 1735689600000⟩]⟩) 0).isSome
      = true :=
  ⟨rfl, rfl, rfl⟩

/-- C3 (amended): `fetch_veikkaus` performs one request; any non-200 status,
429 included, yields `None` immediately, with no retry, backoff or error
value, and `scrape_lotteryusa` never inspects the status at all. -/
theorem c3_no_retry_no_typed_failure :
    (∀ (gid : GameId) (resp : VResp) (tzoff : ℤ), resp.status ≠ 200 →
      fetch_veikkaus gid (some resp) tzoff = none) ∧
    (∀ (gk : GameId) (s1 s2 : ℕ) (titles : List LuTitleBox) (now : PyDateTime),
      scrape_lotteryusa gk (some ⟨s1, titles⟩) now
        = scrape_lotteryusa gk (some ⟨s2, titles⟩) now) := by
  constructor
  · intro gid resp tz h
    simp only [fetch_veikkaus]
    rw [if_pos h]
  · intro gk s1 s2 titles now
    rfl

/-- C3 witness: a 404 response yields `None`, and the LotteryUSA scrape of an
empty page is independent of the status code. -/
theorem c3_no_retry_no_typed_failure_witness :
    fetch_veikkaus GameId.LOTTO (some ⟨404, some []⟩) 0 = none ∧
    scrape_lotteryusa GameId.POWERBALL (some ⟨404, []⟩) ⟨2025, 1, 1, 0⟩
      = scrape_lotteryusa GameId.POWERBALL (some ⟨200, []⟩) ⟨2025, 1, 1, 0⟩ :=
  ⟨c3_no_retry_no_typed_failure.1 GameId.LOTTO ⟨404, some []⟩ 0 (by decide),
   c3_no_retry_no_typed_failure.2 GameId.POWERBALL 404 200 [] ⟨2025, 1, 1, 0⟩⟩

/-- C6: the aggregation run is a total function of its inputs — it always
produces a snapshot stamping the wall clock, whose games are exactly the
successful results in the fixed order LOTTO, VIKING, EJACKPOT, POWERBALL,
MEGAMILLIONS, EUROMILLIONS, SUPERENALOTTO; a failed game is simply absent
and the empty list is a legitimate output. -/
theorem c6_aggregator_total (env : Env) :
    (update_database env).last_updated = fmtTimestamp env.now ∧
    (update_database env).games = gameOrder.filterMap (gameResult env) ∧
    ((∀ g ∈ gameOrder, gameResult env g = none) → (update_database env).games = []) ∧
    (∀ r ∈ (update_database env).games, ∃ g ∈ gameOrder, gameResult env g = some r) := by
  have hgames : (update_database env).games = gameOrder.filterMap (gameResult env) := by
    simp only [update_database, gameOrder, gameResult, List.filterMap_cons,
      List.filterMap_nil]
    rcases fetch_veikkaus GameId.LOTTO (env.veikkaus GameId.LOTTO) env.tzoff with _ | g1 <;>
      rcases fetch_veikkaus GameId.VIKING (env.veikkaus GameId.VIKING) env.tzoff with _ | g2 <;>
      rcases fetch_veikkaus GameId.EJACKPOT (env.veikkaus GameId.EJACKPOT) env.tzoff
        with _ | g3 <;>
      rcases scrape_lotteryusa GameId.POWERBALL (env.lotteryusa GameId.POWERBALL) env.now
        with _ | g4 <;>
      rcases scrape_lotteryusa GameId.MEGAMILLIONS (env.lotteryusa GameId.MEGAMILLIONS) env.now
        with _ | g5 <;>
      rcases scrape_euromillions env.em env.now with _ | g6 <;>
      rcases scrape_superenalotto env.se env.now with _ | g7 <;>
      simp
  refine ⟨rfl, hgames, ?_, ?_⟩
  · intro hall
    rw [hgames]
    simp only [gameOrder, List.filterMap_cons, List.filterMap_nil,
      hall GameId.LOTTO (by decide), hall GameId.VIKING (by decide),
      hall GameId.EJACKPOT (by decide), hall GameId.POWERBALL (by decide),
      hall GameId.MEGAMILLIONS (by decide), hall GameId.EUROMILLIONS (by decide),
      hall GameId.SUPERENALOTTO (by decide)]
  · intro r hr
    rw [hgames] at hr
    obtain ⟨g, hg, hfg⟩ := List.mem_filterMap.mp hr
    exact ⟨g, hg, hfg⟩

/-- An environment in which every source fails. -/
def envAllFail : Env :=
  ⟨fun _ => none, fun _ => none, none, none, ⟨2025, 1, 1, 0⟩, 0⟩

/-- C6 witness: when every source fails the run still produces a snapshot
with an empty game list and the wall-clock stamp. -/
theorem c6_aggregator_total_witness :
    (update_database envAllFail).games = [] ∧
    (update_database envAllFail).last_updated = "2025-01-01 00:00:00" := by
  refine ⟨(c6_aggregator_total envAllFail).2.2.1 ?_, ?_⟩
  · intro g hg
    cases g <;> rfl
  · rw [(c6_aggregator_total envAllFail).1]
    decide

/-- C7: the claim fails at the boundary for the SuperEnalotto scraper — its
unlabelled scan keeps values at least `2_000_000` inclusively, so a page
whose only currency amount equals the floor exactly (not exceeding it)
still yields that amount as the jackpot instead of being rejected. -/
theorem c7_counterexample :
    (scrape_superenalotto (some ⟨200, "win € 2 Million prize"⟩)
        ⟨2025, 1, 1, 0⟩).map Rec.jackpot = some 2000000 ∧
    ¬ (2000000 : ℚ) > 2000000 := by
  constructor
  · have h : (scrape_superenalotto (some ⟨200, "win € 2 Million prize"⟩)
        ⟨2025, 1, 1, 0⟩).map Rec.jackpot = some (Dec.toRat ⟨2000000, 0⟩) := rfl
    rw [h]
    simp only [Option.some.injEq]
    norm_num [Dec.toRat]
  · norm_num

/-- C7 (amended): when no labelled phrase anchors the match, the extractor
scans all currency occurrences of the page and selects the maximum among the
qualifying ones — strictly above 15 000 000 for EuroMillions, and at least
2 000 000 (inclusive) for SuperEnalotto. -/
theorem c7_unlabelled_scan_maximum :
    (∀ (h1s : List String) (ft : List Char), (emH1Scan h1s).num = 0 →
      emCandidates ft ≠ [] →
      emJackpotVal h1s ft ∈ emCandidates ft ∧
      (∀ v ∈ emCandidates ft, v.toRat ≤ (emJackpotVal h1s ft).toRat) ∧
      15000000 < (emJackpotVal h1s ft).toRat) ∧
    (∀ ft : List Char, (seJackpotLabelled ft).num = 0 →
      seCandidates ft ≠ [] →
      seJackpotVal ft ∈ seCandidates ft ∧
      (∀ v ∈ seCandidates ft, v.toRat ≤ (seJackpotVal ft).toRat) ∧
      2000000 ≤ (seJackpotVal ft).toRat) := by
  constructor
  · intro h1s ft h0 hne
    obtain ⟨mx, hmx⟩ : ∃ mx, pyMaxDec (emCandidates ft) = some mx := by
      cases hc : emCandidates ft with
      | nil => exact absurd hc hne
      | cons x xs => exact ⟨_, rfl⟩
    have hval : emJackpotVal h1s ft = mx := by
      simp only [emJackpotVal, h0, if_pos, hmx]
    obtain ⟨hmem, hle⟩ := pyMaxDec_spec _ _ hmx
    rw [hval]
    refine ⟨hmem, hle, ?_⟩
    simpa [Dec.toRat_ofNat] using (Dec.blt_iff _ _).mp (emCandidates_mem ft mx hmem)
  · intro ft h0 hne
    obtain ⟨mx, hmx⟩ : ∃ mx, pyMaxDec (seCandidates ft) = some mx := by
      cases hc : seCandidates ft with
      | nil => exact absurd hc hne
      | cons x xs => exact ⟨_, rfl⟩
    have hval : seJackpotVal ft = mx := by
      simp only [seJackpotVal, h0, if_pos, hmx]
    obtain ⟨hmem, hle⟩ := pyMaxDec_spec _ _ hmx
    rw [hval]
    refine ⟨hmem, hle, ?_⟩
    simpa [Dec.toRat_ofNat] using (Dec.ble_iff _ _).mp (seCandidates_mem ft mx hmem)

/-- C7 witness: an unlabelled SuperEnalotto page with qualifying amounts of
3 and 5 million selects the maximum. -/
theorem c7_unlabelled_scan_maximum_witness :
    seJackpotVal "deal € 3 Million and € 5 Million win".toList
      ∈ seCandidates "deal € 3 Million and € 5 Million win".toList ∧
    (∀ v ∈ seCandidates "deal € 3 Million and € 5 Million win".toList,
      v.toRat ≤ (seJackpotVal "deal € 3 Million and € 5 Million win".toList).toRat) ∧
    2000000 ≤ (seJackpotVal "deal € 3 Million and € 5 Million win".toList).toRat :=
  c7_unlabelled_scan_maximum.2 "deal € 3 Million and € 5 Million win".toList
    (by decide) (by decide)

/-- C8: the subtitle parser destroys every nested `<span>` (the cash-value
sub-elements) before reading the amount: the claim page with `$5 Cash Value`
in a span and `$450 Million Jackpot` in the remaining text resolves to
450 000 000, and span content never influences the parsed text. -/
theorem c8_cash_value_stripped :
    (scrape_lotteryusa GameId.POWERBALL
        (some ⟨200, [⟨"Next est. jackpot", none,
          some [SubNode.span "$5 Cash Value", SubNode.text "$450 Million Jackpot"]⟩]⟩)
        ⟨2025, 1, 1, 0⟩).map Rec.jackpot = some 450000000 ∧
    (∀ (pre post : List SubNode) (s : String),
      subtitleTextAfterDecompose (pre ++ SubNode.span s :: post)
        = subtitleTextAfterDecompose (pre ++ post)) := by
  constructor
  · have h : (scrape_lotteryusa GameId.POWERBALL
        (some ⟨200, [⟨"Next est. jackpot", none,
          some [SubNode.span "$5 Cash Value", SubNode.text "$450 Million Jackpot"]⟩]⟩)
        ⟨2025, 1, 1, 0⟩).map Rec.jackpot = some (Dec.toRat ⟨450000000, 0⟩) := rfl
    rw [h]
    simp only [Option.some.injEq]
    norm_num [Dec.toRat]
  · intro pre post s
    simp [subtitleTextAfterDecompose, List.filterMap_append]

/-- C9: the claim fails on February 29 — a leap-day date more than 60 days in
the past cannot have its year incremented (`dt.replace` raises, the `except`
drops the date), so no ISO string is produced at all. -/
theorem c9_counterexample :
    searchFirst luDateAt "Feb 29".toList = some (2, 29) ∧
    before60Days 2024 2 29 ⟨2024, 6, 15, 43200⟩ = true ∧
    resolveMonthDay 2 29 ⟨2024, 6, 15, 43200⟩ = none := by decide

/-- C9 (amended): a month-name plus day-number date that is valid in the
current year resolves to the current year unless it lies more than 60 days in
the past, in which case the year is incremented — except for February 29,
the only month/day whose increment can fail, where the date is dropped. -/
theorem c9_year_resolution (m d : ℕ) (now : PyDateTime)
    (hm : 1 ≤ m ∧ m ≤ 12) (hd : 1 ≤ d ∧ d ≤ daysInMonth now.year m) :
    (before60Days now.year m d now = false →
      resolveMonthDay m d now = some (isoFmt now.year m d)) ∧
    (before60Days now.year m d now = true → ¬(m = 2 ∧ d = 29) →
      resolveMonthDay m d now = some (isoFmt (now.year + 1) m d)) ∧
    (before60Days now.year m d now = true → m = 2 → d = 29 →
      isLeap (now.year + 1) = false → resolveMonthDay m d now = none) := by
  have hcond : (1 ≤ m && m ≤ 12 && 1 ≤ d && d ≤ daysInMonth now.year m) = true := by
    simp only [Bool.and_eq_true, decide_eq_true_eq]
    exact ⟨⟨⟨hm.1, hm.2⟩, hd.1⟩, hd.2⟩
  refine ⟨?_, ?_, ?_⟩
  · intro hb
    simp only [resolveMonthDay, hcond, if_pos, hb]
    simp
  · intro hb hnot
    have hnext : d ≤ daysInMonth (now.year + 1) m := by
      rcases hm with ⟨hm1, hm2⟩
      rcases hd with ⟨hd1, hd2⟩
      have hd29 : m = 2 → d ≠ 29 := fun h1 h2 => hnot ⟨h1, h2⟩
      interval_cases m <;>
        simp only [daysInMonth] at hd2 ⊢ <;>
        first
          | omega
          | (have h29 := hd29 rfl; split_ifs at hd2 ⊢ <;> omega)
    simp only [resolveMonthDay, hcond, if_pos, hb]
    simp [hnext]
  · intro hb hm2 hd29 hleap
    subst hm2
    subst hd29
    simp only [resolveMonthDay, hcond, if_pos, hb]
    simp [daysInMonth, hleap]

/-- C9 witness: `Jan 24` seen on 2026-01-20 resolves to the current year;
seen on 2026-11-20 (more than 60 days after the current-year date) it rolls
over to 2027. -/
theorem c9_year_resolution_witness :
    resolveMonthDay 1 24 ⟨2026, 1, 20, 3600⟩ = some (isoFmt 2026 1 24) ∧
    resolveMonthDay 1 24 ⟨2026, 11, 20, 3600⟩ = some (isoFmt 2027 1 24) :=
  ⟨(c9_year_resolution 1 24 ⟨2026, 1, 20, 3600⟩ (by decide) (by decide)).1 (by decide),
   (c9_year_resolution 1 24 ⟨2026, 11, 20, 3600⟩ (by decide) (by decide)).2.1
     (by decide) (by decide)⟩

/-- C10: every record any of the four functions returns is the fixed
seven-field dict, with `name`, `odds_jackpot` and `base_rtp` drawn from the
static configuration tables for that game. -/
theorem c10_records_use_config_tables :
    (∀ gid resp tzoff r, fetch_veikkaus gid resp tzoff = some r →
      r.name = NAMES gid ∧ r.odds_jackpot = ODDS_CONFIG gid ∧
        r.base_rtp = RTP_CONFIG gid) ∧
    (∀ gk resp now r, scrape_lotteryusa gk resp now = some r →
      r.name = NAMES gk ∧ r.odds_jackpot = ODDS_CONFIG gk ∧
        r.base_rtp = RTP_CONFIG gk) ∧
    (∀ resp now r, scrape_euromillions resp now = some r →
      r.name = NAMES GameId.EUROMILLIONS ∧
        r.odds_jackpot = ODDS_CONFIG GameId.EUROMILLIONS ∧
        r.base_rtp = RTP_CONFIG GameId.EUROMILLIONS) ∧
    (∀ resp now r, scrape_superenalotto resp now = some r →
      r.name = NAMES GameId.SUPERENALOTTO ∧
        r.odds_jackpot = ODDS_CONFIG GameId.SUPERENALOTTO ∧
        r.base_rtp = RTP_CONFIG GameId.SUPERENALOTTO) := by
  refine ⟨?_, ?_, ?_, ?_⟩
  · intro gid resp tz r h
    cases resp with
    | none => simp [fetch_veikkaus] at h
    | some rr =>
      simp only [fetch_veikkaus] at h
      split_ifs at h
      revert h
      cases hd : rr.data with
      | none => intro h; exact Option.noConfusion h
      | some l =>
        cases l with
        | nil => intro h; exact Option.noConfusion h
        | cons draw rest =>
          dsimp only
          cases hj : draw.jackpots with
          | nil => intro h; exact Option.noConfusion h
          | cons amt amts =>
            intro h
            dsimp only at h
            injection h with h
            subst h
            exact ⟨rfl, rfl, rfl⟩
  · intro gk resp now r h
    cases resp with
    | none => simp [scrape_lotteryusa] at h
    | some rr =>
      simp only [scrape_lotteryusa] at h
      revert h
      cases hf : luFold gk now rr.titles (Dec.ofNat 0, "Check Site") with
      | none => intro h; exact Option.noConfusion h
      | some st =>
        obtain ⟨jv, ds⟩ := st
        intro h
        dsimp only at h
        split_ifs at h
        injection h with h
        subst h
        exact ⟨rfl, rfl, rfl⟩
  · intro resp now r h
    cases resp with
    | none => simp [scrape_euromillions] at h
    | some rr =>
      simp only [scrape_euromillions] at h
      split_ifs at h
      injection h with h
      subst h
      exact ⟨rfl, rfl, rfl⟩
  · intro resp now r h
    cases resp with
    | none => simp [scrape_superenalotto] at h
    | some rr =>
      simp only [scrape_superenalotto] at h
      split_ifs at h
      injection h with h
      subst h
      exact ⟨rfl, rfl, rfl⟩

/-- C10 witness: each of the four functions, on a concrete successful input,
carries the configured name of its game. -/
theorem c10_records_use_config_tables_witness :
    ((fetch_veikkaus GameId.LOTTO
        (some ⟨200, some [⟨[⟨500000000, 0⟩], ⟨300, 0⟩, 1735689600000⟩]⟩) 0).map
          Rec.name).getD "" = "Finnish Lotto" ∧
    ((scrape_lotteryusa GameId.MEGAMILLIONS
        (some ⟨200, [⟨"Next Mega Millions est. jackpot", none,
          some [SubNode.text "$20 Million"]⟩]⟩) ⟨2025, 1, 1, 0⟩).map
          Rec.name).getD "" = "Mega Millions" ∧
    ((scrape_euromillions (some ⟨200, ["€110 Million Jackpot"], "", []⟩)
        ⟨2025, 1, 1, 0⟩).map Rec.name).getD "" = "EuroMillions" ∧
    ((scrape_superenalotto (some ⟨200, "Estimated Jackpot € 73 Million"⟩)
        ⟨2025, 1, 1, 0⟩).map Rec.name).getD "" = "SuperEnalotto" := by
  refine ⟨?_, ?_, ?_, ?_⟩
  · have hs : (fetch_veikkaus GameId.LOTTO
        (some ⟨200, some [⟨[⟨500000000, 0⟩], ⟨300, 0⟩, 1735689600000⟩]⟩) 0).isSome
        = true := rfl
    rcases hsc : fetch_veikkaus GameId.LOTTO
        (some ⟨200, some [⟨[⟨500000000, 0⟩], ⟨300, 0⟩, 1735689600000⟩]⟩) 0 with _ | r
    · rw [hsc] at hs; exact absurd hs (by decide)
    · rw [Option.map_some', Option.getD_some,
        (c10_records_use_config_tables.1 GameId.LOTTO _ 0 r hsc).1]
      rfl
  · have hs : (scrape_lotteryusa GameId.MEGAMILLIONS
        (some ⟨200, [⟨"Next Mega Millions est. jackpot", none,
          some [SubNode.text "$20 Million"]⟩]⟩) ⟨2025, 1, 1, 0⟩).isSome = true := rfl
    rcases hsc : scrape_lotteryusa GameId.MEGAMILLIONS
        (some ⟨200, [⟨"Next Mega Millions est. jackpot", none,
          some [SubNode.text "$20 Million"]⟩]⟩) ⟨2025, 1, 1, 0⟩ with _ | r
    · rw [hsc] at hs; exact absurd hs (by decide)
    · rw [Option.map_some', Option.getD_some,
        (c10_records_use_config_tables.2.1 GameId.MEGAMILLIONS _ _ r hsc).1]
      rfl
  · have hs : (scrape_euromillions (some ⟨200, ["€110 Million Jackpot"], "", []⟩)
        ⟨2025, 1, 1, 0⟩).isSome = true := rfl
    rcases hsc : scrape_euromillions (some ⟨200, ["€110 Million Jackpot"], "", []⟩)
        ⟨2025, 1, 1, 0⟩ with _ | r
    · rw [hsc] at hs; exact absurd hs (by decide)
    · rw [Option.map_some', Option.getD_some,
        (c10_records_use_config_tables.2.2.1 _ _ r hsc).1]
      rfl
  · have hs : (scrape_superenalotto (some ⟨200, "Estimated Jackpot € 73 Million"⟩)
        ⟨2025, 1, 1, 0⟩).isSome = true := rfl
    rcases hsc : scrape_superenalotto (some ⟨200, "Estimated Jackpot € 73 Million"⟩)
        ⟨2025, 1, 1, 0⟩ with _ | r
    · rw [hsc] at hs; exact absurd hs (by decide)
    · rw [Option.map_some', Option.getD_some,
        (c10_records_use_config_tables.2.2.2 _ _ r hsc).1]
      rfl

end LottoTracker
